import Mathlib

/-!
Verification development for the nexus capture core
(`src/src-tauri/src/capture.rs`).

The Rust module is embedded shallowly:

* Pure helpers (`clampFps`, the frame-throttle of `CaptureHandler`,
  `downmix_to_stereo`, `decode_samples`, `thumb_size`, the enumeration
  filter) become Lean functions over `Nat`/`Int`/`ℚ`/`List`.
  Machine integers are modelled as `Nat`/`Int` with explicit `% 256`
  where byte overflow matters.  `f32` sample payloads carried around
  unchanged are modelled by `Float` (no arithmetic is performed on
  them); the IEEE bit pattern of a decoded 32-bit sample is kept as a
  `Nat` bit pattern, and the `f64` arithmetic of `thumb_size` is
  modelled exactly over `ℚ` (Rust `f64::round` on a nonnegative value
  is `⌊x + 1/2⌋`, half away from zero).
* The stateful session controller (`start_capture`,
  `switch_capture_target`, `stop_capture` and the three global slots
  `CAPTURE_RUNNING`, `CAPTURE_CONTROL`, `AUDIO_STOP_FLAG`,
  `AUDIO_THREAD_HANDLE`) becomes an explicit state-passing model: each
  command maps a `SysState` plus an environment (the outcomes of the
  fallible OS calls it makes) to the successor state, the list of
  externally visible actions it performed, in program order, and its
  result.  Spawned audio threads are tracked by a multiset of live
  thread ids driven by the action trace (`stepLive`): `spawnAudio`
  makes a thread live, and `joinAudio` — which in Rust blocks until
  the thread has exited — removes it.
-/

/-! ### Video frame throttling (capture.rs:129-149) -/

/-- Clamping `fps.max(1).min(60)` as performed in `CaptureHandler::new`
(capture.rs:130) and in `start_wgc_capture` (capture.rs:547). -/
def clampFps (fps : Nat) : Nat := min (max fps 1) 60

/-- Throttling state of the WGC frame handler (capture.rs:113-117):
the precomputed emission interval and the time of the last emitted
frame.  Times are in integer milliseconds, exactly the granularity the
code uses (`Duration::as_millis() as u64`). -/
structure CaptureHandler where
  fps_interval_ms : Nat
  last_frame_time : Nat
deriving Repr, DecidableEq

/-- `CaptureHandler::new` (capture.rs:129-136): clamps `fps` into
`[1,60]` and stores `1000 / fps` (integer division, as in the `u64`
expression `1000 / fps as u64`); `last_frame_time` is the creation
instant. -/
def CaptureHandler.new (fps now : Nat) : CaptureHandler :=
  { fps_interval_ms := 1000 / clampFps fps, last_frame_time := now }

/-- Throttling head of `CaptureHandler::on_frame_arrived`
(capture.rs:143-149): if the elapsed time since the last emitted frame
is below the interval the frame is discarded (`return Ok(())`, state
untouched, emitted = `false`); otherwise `last_frame_time` is advanced
to `now` and the frame proceeds to emission (emitted = `true`). -/
def on_frame_arrived (h : CaptureHandler) (now : Nat) : CaptureHandler × Bool :=
  let elapsed := now - h.last_frame_time
  if elapsed < h.fps_interval_ms then (h, false)
  else ({ fps_interval_ms := h.fps_interval_ms, last_frame_time := now }, true)

/-- Arrival times of the frames that the handler actually emits when
raw frames arrive at the given instants. -/
def emittedTimes (h : CaptureHandler) : List Nat → List Nat
  | [] => []
  | t :: ts =>
    match on_frame_arrived h t with
    | (h', true) => t :: emittedTimes h' ts
    | (h', false) => emittedTimes h' ts

/-! ### Audio downmix (capture.rs:773-796) -/

/-- `downmix_to_stereo` (capture.rs:773-796).  Stereo input is passed
through unchanged (`all_samples.to_vec()`); mono duplicates each frame
into both output channels; any other channel count takes source
channels 0 and 1 of each frame as left/right.  Out-of-range reads use
the `unwrap_or(0.0)` default, as in the source. -/
def downmix_to_stereo (all_samples : List Float) (channels frame_count : Nat) : List Float :=
  if channels = 2 then
    all_samples
  else if channels = 1 then
    (List.range frame_count).flatMap (fun i =>
      let v := all_samples.getD i 0.0
      [v, v])
  else
    (List.range frame_count).flatMap (fun f =>
      let base := f * channels
      [all_samples.getD base 0.0, all_samples.getD (base + 1) 0.0])

/-! ### Audio sample decoding (capture.rs:753-770, 1199-1220) -/

/-- Result of decoding one raw sample.  `f32` values are never
computed with, only forwarded, so a decoded 32-bit float is kept as
its assembled little-endian IEEE-754 bit pattern; a decoded 16-bit PCM
sample is kept as the signed integer `v` whose emitted value is the
exact `f32` quantity `v / 32768`; `zero` is the literal `0.0` pushed
for unsupported widths. -/
inductive DecodedSample where
  | float32 (bits : Nat)
  | pcm16 (v : Int)
  | zero
deriving Repr, DecidableEq

/-- Little-endian assembly of two bytes into a `u16`
(`u16::from_le_bytes`); bytes are `Nat`s reduced `% 256`. -/
def u16_from_le (b0 b1 : Nat) : Nat := b0 % 256 + 256 * (b1 % 256)

/-- `i16::from_le_bytes` (capture.rs:763): the two's-complement
reading of the little-endian `u16`. -/
def i16_from_le (b0 b1 : Nat) : Int :=
  let u := u16_from_le b0 b1
  if u < 32768 then (u : Int) else (u : Int) - 65536

/-- Little-endian assembly of four bytes into a `u32` bit pattern
(`f32::from_le_bytes` keeps exactly this pattern, capture.rs:761). -/
def u32_from_le (b0 b1 b2 b3 : Nat) : Nat :=
  b0 % 256 + 256 * (b1 % 256) + 65536 * (b2 % 256) + 16777216 * (b3 % 256)

/-- Decoding of the single sample at byte offset `offset`
(capture.rs:760-766): width 4 → little-endian `f32` bit pattern passed
through; width 2 → little-endian `i16` scaled by `1/32768`; any other
width → silence (`0.0`). -/
def decodeOne (raw : List Nat) (offset bps : Nat) : DecodedSample :=
  if bps = 4 then
    DecodedSample.float32 (u32_from_le (raw.getD offset 0) (raw.getD (offset + 1) 0)
      (raw.getD (offset + 2) 0) (raw.getD (offset + 3) 0))
  else if bps = 2 then
    DecodedSample.pcm16 (i16_from_le (raw.getD offset 0) (raw.getD (offset + 1) 0))
  else DecodedSample.zero

/-- Loop body of `decode_samples` (capture.rs:755-768): sample index
`i`, remaining iteration budget `k`; the loop breaks as soon as
`offset + bytes_per_sample > raw.len()`. -/
def decode_go (raw : List Nat) (bps : Nat) : Nat → Nat → List DecodedSample
  | _, 0 => []
  | i, k + 1 =>
    if i * bps + bps > raw.length then []
    else decodeOne raw (i * bps) bps :: decode_go raw bps (i + 1) k

/-- `decode_samples` (capture.rs:753-770). -/
def decode_samples (raw : List Nat) (bps total : Nat) : List DecodedSample :=
  decode_go raw bps 0 total

/-- Inline decoder of `run_regular_loopback` (capture.rs:1199-1220):
the same decoding performed by popping bytes off the front of the
drained deque.  Each of the `total` iterations pops one sample's worth
of bytes when at least `bytes_per_sample` remain and otherwise pushes
nothing. -/
def decode_deque (bps : Nat) : List Nat → Nat → List DecodedSample
  | _, 0 => []
  | q, k + 1 =>
    if bps ≤ q.length then
      decodeOne q 0 bps :: decode_deque bps (q.drop bps) k
    else
      decode_deque bps q k

/-! ### Target enumeration (capture.rs:17-27, 214-278, 457-537) -/

/-- `CaptureTarget` (capture.rs:17-27). -/
structure CaptureTarget where
  id : String
  title : String
  target_type : String
  process_name : String
  process_id : Nat
  width : Nat
  height : Nat
  thumbnail : String
deriving Repr, DecidableEq

/-- One top-level window as the OS reports it to the enumeration loop
(capture.rs:465-507).  `title` and `process_name` are the values after
`unwrap_or_default()`; `visible`, `cloaked_ok`/`cloaked` and
`ex_style` are what `IsWindowVisible`, `DwmGetWindowAttribute` and
`GetWindowLongW` return inside `is_capturable_window`; `pid` is the
`GetWindowThreadProcessId` result; `thumbnail`/`rect_w`/`rect_h` are
the triple returned by `capture_window_thumbnail`. -/
structure OsWindow where
  title : String
  process_name : String
  hwnd : Int
  visible : Bool
  cloaked_ok : Bool
  cloaked : Nat
  ex_style : Nat
  pid : Nat
  thumbnail : String
  rect_w : Nat
  rect_h : Nat
deriving Repr, DecidableEq

/-- One monitor as the OS reports it (capture.rs:511-530):
`device_name_ok` tells whether `device_name()` succeeded; `width` and
`height` are the `unwrap_or(0)` results; `thumbnail` is what
`capture_monitor_thumbnail` produced. -/
structure OsMonitor where
  device_name_ok : Bool
  device_name : String
  width : Nat
  height : Nat
  thumbnail : String
deriving Repr, DecidableEq

/-- Truth of `needle` being a prefix of `hay` (character lists). -/
def isPrefixB (needle hay : List Char) : Bool :=
  match needle, hay with
  | [], _ => true
  | _ :: _, [] => false
  | a :: as, b :: bs => a == b && isPrefixB as bs

/-- Rust `str::contains` on character lists: `needle` occurs as a
contiguous substring of `hay`. -/
def containsSub (needle hay : List Char) : Bool :=
  match hay with
  | [] => needle.isEmpty
  | _ :: bs => isPrefixB needle hay || containsSub needle bs

/-- Rust `str::to_lowercase` as used on process names (ASCII
lowering, which agrees with Unicode lowering on every name the code
compares against). -/
def strToLower (s : String) : String := String.mk (s.data.map Char.toLower)

/-- `BACKGROUND_PROCESSES` denylist (capture.rs:223-233). -/
def BACKGROUND_PROCESSES : List String :=
  ["textinputhost.exe", "searchhost.exe", "shellexperiencehost.exe",
   "startmenuexperiencehost.exe", "lockapp.exe", "widgets.exe",
   "gamebar.exe", "gamebarftserver.exe", "msteams.exe"]

/-- Extended window style bit `WS_EX_TOOLWINDOW = 0x80`. -/
def WS_EX_TOOLWINDOW : Nat := 128

/-- Extended window style bit `WS_EX_APPWINDOW = 0x40000`. -/
def WS_EX_APPWINDOW : Nat := 262144

/-- `is_capturable_window` (capture.rs:236-278): denylisted process
names, invisible windows, cloaked windows and tool-style windows
without the app-window bit are rejected. -/
def is_capturable_window (w : OsWindow) : Bool :=
  if BACKGROUND_PROCESSES.any (fun p => strToLower w.process_name == p) then false
  else if !w.visible then false
  else if w.cloaked_ok && w.cloaked != 0 then false
  else if (w.ex_style &&& WS_EX_TOOLWINDOW != 0) && (w.ex_style &&& WS_EX_APPWINDOW == 0) then false
  else true

/-- Window half of `enumerate_capture_targets` (capture.rs:465-507):
skip empty / `"Program Manager"` titles, skip any window whose
lowercased process name contains `"nexus"` (self-capture guard,
capture.rs:475), skip windows rejected by `is_capturable_window`. -/
def windowTargets (ws : List OsWindow) : List CaptureTarget :=
  ws.filterMap (fun w =>
    if w.title == "" || w.title == "Program Manager" then none
    else if containsSub "nexus".toList (strToLower w.process_name).toList then none
    else if !is_capturable_window w then none
    else some
      { id := "window:" ++ toString w.hwnd
        title := w.title
        target_type := "window"
        process_name := w.process_name
        process_id := w.pid
        width := w.rect_w
        height := w.rect_h
        thumbnail := w.thumbnail })

/-- Display name of monitor `i` (capture.rs:513-515), falling back to
a numbered name when `device_name()` fails. -/
def monitorName (i : Nat) (m : OsMonitor) : String :=
  if m.device_name_ok then m.device_name else "ディスプレイ " ++ toString (i + 1)

/-- Monitor half of `enumerate_capture_targets` (capture.rs:511-530):
every monitor becomes a target with an empty `process_name` and
`process_id = 0`. -/
def monitorTargets (ms : List OsMonitor) : List CaptureTarget :=
  ms.enum.map (fun p =>
    let name := monitorName p.1 p.2
    { id := "monitor:" ++ toString p.1
      title := "画面 " ++ toString (p.1 + 1) ++ " (" ++ name ++ ")"
      target_type := "monitor"
      process_name := ""
      process_id := 0
      width := p.2.width
      height := p.2.height
      thumbnail := p.2.thumbnail })

/-- `enumerate_capture_targets` (capture.rs:459-537), as a function of
the windows and monitors the OS reports: window targets first, then
monitor targets. -/
def enumerate_capture_targets (ws : List OsWindow) (ms : List OsMonitor) : List CaptureTarget :=
  windowTargets ws ++ monitorTargets ms

/-! ### Thumbnail sizing (capture.rs:282-298) -/

/-- Rust `f64::round` (round half away from zero) restricted to the
nonnegative arguments `thumb_size` feeds it: `⌊x + 1/2⌋`. -/
def roundq (x : ℚ) : ℤ := ⌊x + 1 / 2⌋

/-- `thumb_size` (capture.rs:287-298), with the `f64` arithmetic
modelled exactly over `ℚ`: degenerate dimensions yield `1×1`;
otherwise one scale factor `min (min (320/w) (180/h)) 1` is applied to
both dimensions, rounded and clamped below by `1` (`.round().max(1.0)
as u32`). -/
def thumb_size (w h : Nat) : Nat × Nat :=
  if w = 0 ∨ h = 0 then (1, 1)
  else
    let scale : ℚ := min (min (320 / (w : ℚ)) (180 / (h : ℚ))) 1
    ((max (roundq ((w : ℚ) * scale)) 1).toNat,
     (max (roundq ((h : ℚ) * scale)) 1).toNat)

/-! ### Session controller (capture.rs:60-67, 644-748) -/

/-- Externally visible actions of the controller commands, in program
order.  `stopVideo c` / `stopVideoFail c` are the success / failure
outcomes of `control.stop_capture()` on the stored video control `c`;
`signalAudio f` is `flag.store(true)` on the stored stop flag `f`;
`joinAudio t` is the return of `handle.join()` on the stored audio
thread `t` (in Rust this blocks until the thread has exited);
`spawnAudio t` is `std::thread::spawn` of a new audio thread `t`;
`startVideoOk c` / `startVideoFail` are the outcomes of
`start_wgc_capture`; `clearRunning` is `CAPTURE_RUNNING.store(false)`. -/
inductive Ev where
  | clearRunning
  | stopVideo (c : Nat)
  | stopVideoFail (c : Nat)
  | signalAudio (f : Nat)
  | joinAudio (t : Nat)
  | spawnAudio (t : Nat)
  | startVideoOk (c : Nat)
  | startVideoFail
deriving Repr, DecidableEq

/-- Truth of `e` being a `spawnAudio` action. -/
def Ev.isSpawn : Ev → Bool
  | .spawnAudio _ => true
  | _ => false

/-- Truth of `e` being a video-stop action (successful or failed). -/
def Ev.isVideoStop : Ev → Bool
  | .stopVideo _ => true
  | .stopVideoFail _ => true
  | _ => false

/-- Effect of one action on the list of live (spawned, not yet
exited) audio thread ids: a spawn makes its thread live, a completed
join means the thread has exited. -/
def stepLive (l : List Nat) : Ev → List Nat
  | .spawnAudio t => t :: l
  | .joinAudio t => l.erase t
  | _ => l

/-- Live audio threads after a trace of actions. -/
def applyTrace (l : List Nat) (tr : List Ev) : List Nat :=
  tr.foldl stepLive l

/-- Truth of: scanning `tr` left to right, an occurrence of `a`
appears before the first action satisfying `p` (so every `p`-action in
`tr` is preceded by an `a`). -/
def occursBefore (a : Ev) (p : Ev → Bool) : List Ev → Bool
  | [] => true
  | e :: tr => if e = a then true else if p e then false else occursBefore a p tr

/-- Truth of: starting from the live set `l`, after every single
action of `tr` at most one audio thread is live. -/
def boundedLive (l : List Nat) : List Ev → Bool
  | [] => true
  | e :: tr =>
    let l' := stepLive l e
    decide (l'.length ≤ 1) && boundedLive l' tr

/-- The controller's process-wide state (capture.rs:61-67):
`CAPTURE_RUNNING`, and the three `Mutex<Option<..>>` slots holding the
type-erased video control, the audio stop flag and the audio thread
join handle.  Stored handles are identified by ids. -/
structure SysState where
  capture_running : Bool
  capture_control : Option Nat
  audio_stop_flag : Option Nat
  audio_thread : Option Nat
deriving Repr, DecidableEq

/-- Environment of one `start_capture` call: the outcome of
`start_wgc_capture` (`.ok` carries the id of the new control handle)
and the ids of the freshly created stop flag and audio thread. -/
structure StartEnv where
  wgc : Except String Nat
  freshFlag : Nat
  freshThread : Nat
deriving Repr

/-- Environment of one `switch_capture_target` call: whether
`control.stop_capture()` succeeds, the outcome of `start_wgc_capture`,
and the ids of the freshly created stop flag and audio thread. -/
structure SwitchEnv where
  videoStopOk : Bool
  wgc : Except String Nat
  freshFlag : Nat
  freshThread : Nat
deriving Repr

/-- Environment of one `stop_capture` call: whether
`control.stop_capture()` succeeds. -/
structure StopEnv where
  videoStopOk : Bool
deriving Repr, DecidableEq

/-- `start_capture` (capture.rs:644-677).  Rejects when a session is
already running; otherwise runs `start_wgc_capture` and, on success,
sets the running flag, stores the control, and spawns an audio thread
only when `capture_audio` is true. -/
def start_capture (st : SysState) (capture_audio : Bool) (env : StartEnv) :
    SysState × List Ev × Except String Unit :=
  if st.capture_running then (st, [], .error "Capture already running")
  else
    match env.wgc with
    | .error e => (st, [.startVideoFail], .error e)
    | .ok c =>
      let st1 : SysState :=
        { st with capture_running := true, capture_control := some c }
      if capture_audio then
        ({ st1 with audio_stop_flag := some env.freshFlag,
                    audio_thread := some env.freshThread },
         [.startVideoOk c, .spawnAudio env.freshThread], .ok ())
      else
        (st1, [.startVideoOk c], .ok ())

/-- Audio-restart and video-restart tail of `switch_capture_target`
(capture.rs:696-722), entered after the old video control has been
dealt with: take and signal the old stop flag, take and join the old
audio thread, store a fresh flag, spawn a fresh audio thread, store
its handle, then run `start_wgc_capture` and store the new control on
success. -/
def switchAudioPhase (st : SysState) (env : SwitchEnv) (tr0 : List Ev) :
    SysState × List Ev × Except String Unit :=
  let p1 : SysState × List Ev :=
    match st.audio_stop_flag with
    | some f => ({ st with audio_stop_flag := none }, tr0 ++ [.signalAudio f])
    | none => (st, tr0)
  let p2 : SysState × List Ev :=
    match p1.1.audio_thread with
    | some t => ({ p1.1 with audio_thread := none }, p1.2 ++ [.joinAudio t])
    | none => p1
  let st3 : SysState :=
    { p2.1 with audio_stop_flag := some env.freshFlag,
                audio_thread := some env.freshThread }
  let tr3 := p2.2 ++ [.spawnAudio env.freshThread]
  match env.wgc with
  | .ok c => ({ st3 with capture_control := some c }, tr3 ++ [.startVideoOk c], .ok ())
  | .error e => (st3, tr3 ++ [.startVideoFail], .error e)

/-- `switch_capture_target` (capture.rs:681-723).  Rejects when no
session is running.  Takes and stops the current video control; a
failure there propagates immediately (the `?` on capture.rs:693)
before the audio restart.  Otherwise the audio phase and the new
video session follow.  `CAPTURE_RUNNING` is never modified. -/
def switch_capture_target (st : SysState) (env : SwitchEnv) :
    SysState × List Ev × Except String Unit :=
  if !st.capture_running then (st, [], .error "No capture running")
  else
    match st.capture_control with
    | some c =>
      if env.videoStopOk then
        switchAudioPhase { st with capture_control := none } env [.stopVideo c]
      else
        ({ st with capture_control := none }, [.stopVideoFail c], .error "stop capture failed")
    | none => switchAudioPhase st env []

/-- `stop_capture` (capture.rs:727-748).  Clears the running flag
first, then takes and signals the stop flag, takes and joins the audio
thread, and finally takes and stops the video control (whose failure
is the only error). -/
def stop_capture (st : SysState) (env : StopEnv) :
    SysState × List Ev × Except String Unit :=
  let st0 : SysState := { st with capture_running := false }
  let p1 : SysState × List Ev :=
    match st0.audio_stop_flag with
    | some f => ({ st0 with audio_stop_flag := none }, [.clearRunning, .signalAudio f])
    | none => (st0, [.clearRunning])
  let p2 : SysState × List Ev :=
    match p1.1.audio_thread with
    | some t => ({ p1.1 with audio_thread := none }, p1.2 ++ [.joinAudio t])
    | none => p1
  match p2.1.capture_control with
  | some c =>
    if env.videoStopOk then
      ({ p2.1 with capture_control := none }, p2.2 ++ [.stopVideo c], .ok ())
    else
      ({ p2.1 with capture_control := none }, p2.2 ++ [.stopVideoFail c], .error "stop capture failed")
  | none => (p2.1, p2.2, .ok ())

/-- Linking invariant between the controller state and the live audio
threads: the live threads are exactly the one the controller tracks in
`AUDIO_THREAD_HANDLE` (none when the slot is empty). -/
def audioInv (st : SysState) (live : List Nat) : Prop :=
  match st.audio_thread with
  | some t => live = [t]
  | none => live = []

/-! ### Lemmas and claim theorems -/

theorem emittedTimes_cons (h : CaptureHandler) (t : Nat) (ts : List Nat) :
    emittedTimes h (t :: ts) =
      if t - h.last_frame_time < h.fps_interval_ms then emittedTimes h ts
      else t :: emittedTimes { fps_interval_ms := h.fps_interval_ms, last_frame_time := t } ts := by
  simp only [emittedTimes, on_frame_arrived]
  by_cases hc : t - h.last_frame_time < h.fps_interval_ms <;> simp [hc]

theorem emittedTimes_head_gap : ∀ (ts : List Nat) (h : CaptureHandler) (t1 : Nat),
    (emittedTimes h ts).head? = some t1 → h.fps_interval_ms ≤ t1 - h.last_frame_time := by
  intro ts
  induction ts with
  | nil => intro h t1 hh; simp [emittedTimes] at hh
  | cons t ts ih =>
    intro h t1 hh
    rw [emittedTimes_cons] at hh
    by_cases hc : t - h.last_frame_time < h.fps_interval_ms
    · rw [if_pos hc] at hh
      exact ih h t1 hh
    · rw [if_neg hc] at hh
      simp only [List.head?_cons, Option.some.injEq] at hh
      subst hh
      exact Nat.le_of_not_lt hc

theorem emittedTimes_chain : ∀ (ts : List Nat) (h : CaptureHandler),
    List.Chain' (fun a b => h.fps_interval_ms ≤ b - a) (emittedTimes h ts) := by
  intro ts
  induction ts with
  | nil => intro h; simp [emittedTimes]
  | cons t ts ih =>
    intro h
    rw [emittedTimes_cons]
    by_cases hc : t - h.last_frame_time < h.fps_interval_ms
    · rw [if_pos hc]; exact ih h
    · rw [if_neg hc]
      refine List.chain'_cons'.mpr ⟨?_, ih _⟩
      intro b hb
      exact emittedTimes_head_gap ts _ b hb

/-- C1: every `fps` passed to start/switch is clamped into `[1,60]`
(identically when already in range) and the handler's emission
interval is `1000 / clamped_fps` integer milliseconds; a frame whose
elapsed time is below the interval is discarded with the handler state
untouched, and any two consecutively emitted frames are at least
`1000 / clamped_fps` milliseconds apart. -/
theorem capture_fps_clamp_and_throttle (fps now : Nat) (ts : List Nat) :
    (CaptureHandler.new fps now).fps_interval_ms = 1000 / clampFps fps
    ∧ 1 ≤ clampFps fps ∧ clampFps fps ≤ 60
    ∧ (1 ≤ fps → fps ≤ 60 → clampFps fps = fps)
    ∧ (∀ (h : CaptureHandler) (t : Nat),
        (on_frame_arrived h t).2 = false → (on_frame_arrived h t).1 = h)
    ∧ List.Chain' (fun a b => 1000 / clampFps fps ≤ b - a)
        (emittedTimes (CaptureHandler.new fps now) ts) := by
  refine ⟨rfl, ?_, ?_, ?_, ?_, ?_⟩
  · unfold clampFps; omega
  · unfold clampFps; omega
  · intro h1 h2; unfold clampFps; omega
  · intro h t
    simp only [on_frame_arrived]
    split
    · intro; rfl
    · intro hcontra; simp at hcontra
  · exact emittedTimes_chain ts (CaptureHandler.new fps now)

/-- Witness for C1 at `fps = 1000` (clamped to 60) and four frame
arrivals. -/
theorem capture_fps_clamp_and_throttle_w :
    (CaptureHandler.new 1000 0).fps_interval_ms = 1000 / clampFps 1000
    ∧ 1 ≤ clampFps 1000 ∧ clampFps 1000 ≤ 60
    ∧ (1 ≤ 1000 → 1000 ≤ 60 → clampFps 1000 = 1000)
    ∧ (∀ (h : CaptureHandler) (t : Nat),
        (on_frame_arrived h t).2 = false → (on_frame_arrived h t).1 = h)
    ∧ List.Chain' (fun a b => 1000 / clampFps 1000 ≤ b - a)
        (emittedTimes (CaptureHandler.new 1000 0) [10, 16, 20, 33]) :=
  capture_fps_clamp_and_throttle 1000 0 [10, 16, 20, 33]

theorem flatMapPair_length {α : Type} (a b : Nat → α) (n : Nat) :
    ((List.range n).flatMap fun k => [a k, b k]).length = 2 * n := by
  induction n with
  | zero => simp
  | succ n ih =>
    rw [List.range_succ, List.flatMap_append, List.length_append, ih]
    simp [List.flatMap_cons]
    omega

theorem flatMapPair_getD {α : Type} (a b : Nat → α) (d : α) :
    ∀ (n i : Nat), i < n →
      (((List.range n).flatMap fun k => [a k, b k]).getD (2 * i) d = a i)
      ∧ (((List.range n).flatMap fun k => [a k, b k]).getD (2 * i + 1) d = b i) := by
  intro n
  induction n with
  | zero => intro i h; omega
  | succ n ih =>
    intro i h
    rw [List.range_succ, List.flatMap_append]
    have hlen : ((List.range n).flatMap fun k => [a k, b k]).length = 2 * n :=
      flatMapPair_length a b n
    by_cases hi : i < n
    · constructor
      · rw [List.getD_eq_getElem?_getD, List.getElem?_append_left (by omega),
          ← List.getD_eq_getElem?_getD]
        exact (ih i hi).1
      · rw [List.getD_eq_getElem?_getD, List.getElem?_append_left (by omega),
          ← List.getD_eq_getElem?_getD]
        exact (ih i hi).2
    · have hieq : i = n := by omega
      subst hieq
      constructor
      · rw [List.getD_eq_getElem?_getD, List.getElem?_append_right (by omega)]
        simp [hlen]
      · rw [List.getD_eq_getElem?_getD, List.getElem?_append_right (by omega)]
        simp [hlen]

/-- C6: on a buffer holding `frame_count` frames of `channels ≥ 1`
interleaved channels, `downmix_to_stereo` returns exactly two
interleaved channels (`2 * frame_count` samples); mono input
duplicates each sample identically into left and right; input with
three or more channels keeps each frame's first two source channels
unchanged as left/right; stereo input passes through unchanged. -/
theorem downmix_to_stereo_spec (all_samples : List Float) (channels frame_count : Nat)
    (hc : 1 ≤ channels)
    (hlen : all_samples.length = channels * frame_count) :
    (downmix_to_stereo all_samples channels frame_count).length = 2 * frame_count
    ∧ (channels = 1 → ∀ i, i < frame_count →
        (downmix_to_stereo all_samples channels frame_count).getD (2 * i) 0.0
            = all_samples.getD i 0.0
        ∧ (downmix_to_stereo all_samples channels frame_count).getD (2 * i + 1) 0.0
            = all_samples.getD i 0.0)
    ∧ (3 ≤ channels → ∀ f, f < frame_count →
        (downmix_to_stereo all_samples channels frame_count).getD (2 * f) 0.0
            = all_samples.getD (f * channels) 0.0
        ∧ (downmix_to_stereo all_samples channels frame_count).getD (2 * f + 1) 0.0
            = all_samples.getD (f * channels + 1) 0.0)
    ∧ (channels = 2 → downmix_to_stereo all_samples channels frame_count = all_samples) := by
  by_cases h2 : channels = 2
  · subst h2
    refine ⟨?_, ?_, ?_, ?_⟩
    · simpa [downmix_to_stereo] using hlen
    · intro h1; exact absurd h1 (by norm_num)
    · intro h3; exact absurd h3 (by norm_num)
    · intro _; simp [downmix_to_stereo]
  · by_cases h1 : channels = 1
    · subst h1
      have hdm : downmix_to_stereo all_samples 1 frame_count =
          (List.range frame_count).flatMap
            (fun k => [all_samples.getD k 0.0, all_samples.getD k 0.0]) := by
        simp [downmix_to_stereo]
      refine ⟨?_, ?_, ?_, ?_⟩
      · rw [hdm]; exact flatMapPair_length _ _ frame_count
      · intro _ i hi
        rw [hdm]
        exact flatMapPair_getD _ _ 0.0 frame_count i hi
      · intro h3; exact absurd h3 (by norm_num)
      · intro hcontra; exact absurd hcontra (by norm_num)
    · have h3 : 3 ≤ channels := by omega
      have hdm : downmix_to_stereo all_samples channels frame_count =
          (List.range frame_count).flatMap
            (fun f => [all_samples.getD (f * channels) 0.0,
                       all_samples.getD (f * channels + 1) 0.0]) := by
        simp [downmix_to_stereo, h1, h2]
      refine ⟨?_, ?_, ?_, ?_⟩
      · rw [hdm]; exact flatMapPair_length _ _ frame_count
      · intro hcontra; exact absurd hcontra h1
      · intro _ f hf
        rw [hdm]
        exact flatMapPair_getD _ _ 0.0 frame_count f hf
      · intro hcontra; exact absurd hcontra h2

/-- Witness for C6 on a one-frame three-channel buffer. -/
theorem downmix_to_stereo_spec_w :
    (downmix_to_stereo [1.0, 2.0, 3.0] 3 1).length = 2 * 1
    ∧ (3 = 1 → ∀ i, i < 1 →
        (downmix_to_stereo [1.0, 2.0, 3.0] 3 1).getD (2 * i) 0.0
            = [(1.0 : Float), 2.0, 3.0].getD i 0.0
        ∧ (downmix_to_stereo [1.0, 2.0, 3.0] 3 1).getD (2 * i + 1) 0.0
            = [(1.0 : Float), 2.0, 3.0].getD i 0.0)
    ∧ (3 ≤ 3 → ∀ f, f < 1 →
        (downmix_to_stereo [1.0, 2.0, 3.0] 3 1).getD (2 * f) 0.0
            = [(1.0 : Float), 2.0, 3.0].getD (f * 3) 0.0
        ∧ (downmix_to_stereo [1.0, 2.0, 3.0] 3 1).getD (2 * f + 1) 0.0
            = [(1.0 : Float), 2.0, 3.0].getD (f * 3 + 1) 0.0)
    ∧ (3 = 2 → downmix_to_stereo [1.0, 2.0, 3.0] 3 1 = [1.0, 2.0, 3.0]) :=
  downmix_to_stereo_spec [1.0, 2.0, 3.0] 3 1 (by norm_num) rfl

theorem decode_go_length (raw : List Nat) (bps : Nat) :
    ∀ (k i : Nat), (decode_go raw bps i k).length ≤ k := by
  intro k
  induction k with
  | zero => intro i; simp [decode_go]
  | succ k ih =>
    intro i
    rw [decode_go]
    split
    · simp
    · simpa using ih (i + 1)

theorem decode_go_getD (raw : List Nat) (bps : Nat) :
    ∀ (k i j : Nat), j < (decode_go raw bps i k).length →
      (decode_go raw bps i k).getD j DecodedSample.zero = decodeOne raw ((i + j) * bps) bps
      ∧ (i + j) * bps + bps ≤ raw.length := by
  intro k
  induction k with
  | zero => intro i j hj; simp [decode_go] at hj
  | succ k ih =>
    intro i j hj
    rw [decode_go] at hj ⊢
    by_cases hc : i * bps + bps > raw.length
    · rw [if_pos hc] at hj; simp at hj
    · rw [if_neg hc] at hj ⊢
      match j with
      | 0 => exact ⟨rfl, by simp only [Nat.add_zero]; omega⟩
      | j' + 1 =>
        simp only [List.length_cons, Nat.add_lt_add_iff_right] at hj
        have h := ih (i + 1) j' hj
        have harith : i + 1 + j' = i + (j' + 1) := by omega
        rw [harith] at h
        exact ⟨h.1, h.2⟩

theorem decode_deque_stuck (bps : Nat) :
    ∀ (k : Nat) (q : List Nat), q.length < bps → decode_deque bps q k = [] := by
  intro k
  induction k with
  | zero => intro q _; rfl
  | succ k ih =>
    intro q hq
    rw [decode_deque, if_neg (by omega)]
    exact ih q hq

theorem getD_drop (l : List Nat) (n m : Nat) : (l.drop n).getD m 0 = l.getD (n + m) 0 := by
  simp [List.getD_eq_getElem?_getD, List.getElem?_drop]

theorem decodeOne_drop (raw : List Nat) (o bps : Nat) :
    decodeOne (raw.drop o) 0 bps = decodeOne raw o bps := by
  unfold decodeOne
  rw [getD_drop, getD_drop, getD_drop, getD_drop]
  simp

theorem decode_go_succ (raw : List Nat) (bps i k : Nat) :
    decode_go raw bps i (k + 1) =
      if i * bps + bps > raw.length then []
      else decodeOne raw (i * bps) bps :: decode_go raw bps (i + 1) k := rfl

theorem decode_deque_succ (bps : Nat) (q : List Nat) (k : Nat) :
    decode_deque bps q (k + 1) =
      if bps ≤ q.length then decodeOne q 0 bps :: decode_deque bps (q.drop bps) k
      else decode_deque bps q k := rfl

theorem decode_go_eq_deque (raw : List Nat) (bps : Nat) :
    ∀ (k i : Nat), decode_go raw bps i k = decode_deque bps (raw.drop (i * bps)) k := by
  intro k
  induction k with
  | zero => intro i; rfl
  | succ k ih =>
    intro i
    by_cases hc : i * bps + bps > raw.length
    · have hbpos : 0 < bps := by
        rcases Nat.eq_zero_or_pos bps with hb0 | hb0
        · subst hb0; simp at hc
        · exact hb0
      have hq : (raw.drop (i * bps)).length < bps := by
        rw [List.length_drop]; omega
      rw [decode_go_succ, decode_deque_succ, if_pos hc, if_neg (Nat.not_le.mpr hq)]
      exact (decode_deque_stuck bps k _ hq).symm
    · have hcond : bps ≤ (raw.drop (i * bps)).length := by
        rw [List.length_drop]; omega
      rw [decode_go_succ, decode_deque_succ, if_neg hc, if_pos hcond, List.drop_drop]
      have harith : i * bps + bps = (i + 1) * bps := by ring
      rw [harith, ← ih (i + 1), decodeOne_drop]

theorem i16_from_le_range (b0 b1 : Nat) :
    -32768 ≤ i16_from_le b0 b1 ∧ i16_from_le b0 b1 ≤ 32767 := by
  have h0 : b0 % 256 < 256 := Nat.mod_lt _ (by norm_num)
  have h1 : b1 % 256 < 256 := Nat.mod_lt _ (by norm_num)
  by_cases hlt : u16_from_le b0 b1 < 32768 <;>
    simp only [i16_from_le, hlt, if_true, if_false, reduceIte] <;>
    unfold u16_from_le at * <;> omega

theorem pcm_scale_range (v : Int) (hl : -32768 ≤ v) (hu : v ≤ 32767) :
    -(1 : ℚ) ≤ (v : ℚ) / 32768 ∧ (v : ℚ) / 32768 ≤ 1 := by
  have h32 : (0 : ℚ) < 32768 := by norm_num
  constructor
  · rw [le_div_iff₀ h32]
    have hc : ((-32768 : Int) : ℚ) ≤ (v : ℚ) := by exact_mod_cast hl
    push_cast at hc
    linarith
  · rw [div_le_one h32]
    have hc : (v : ℚ) ≤ ((32767 : Int) : ℚ) := by exact_mod_cast hu
    push_cast at hc
    linarith

/-- C7: `decode_samples` produces at most the requested number of
samples and only reads bytes inside the buffer (every produced sample
`j` satisfies `(j+1) * bytes_per_sample ≤ raw.length`); width 4 yields
the little-endian 32-bit pattern of the four source bytes passed
through unchanged; width 2 yields the little-endian 16-bit integer,
whose value scaled by `1/32768` lies in `[-1, 1]`; any other width
yields silence.  The inline deque decoder of `run_regular_loopback`
computes exactly the same samples. -/
theorem decode_samples_spec (raw : List Nat) (bps total : Nat) :
    (decode_samples raw bps total).length ≤ total
    ∧ (∀ j, j < (decode_samples raw bps total).length → (j + 1) * bps ≤ raw.length)
    ∧ (bps = 4 → ∀ j, j < (decode_samples raw bps total).length →
        (decode_samples raw bps total).getD j DecodedSample.zero =
          DecodedSample.float32 (u32_from_le (raw.getD (4 * j) 0) (raw.getD (4 * j + 1) 0)
            (raw.getD (4 * j + 2) 0) (raw.getD (4 * j + 3) 0)))
    ∧ (bps = 2 → ∀ j, j < (decode_samples raw bps total).length →
        ∃ v : Int, (decode_samples raw bps total).getD j DecodedSample.zero =
            DecodedSample.pcm16 v
          ∧ v = i16_from_le (raw.getD (2 * j) 0) (raw.getD (2 * j + 1) 0)
          ∧ -(1 : ℚ) ≤ (v : ℚ) / 32768 ∧ (v : ℚ) / 32768 ≤ 1)
    ∧ (bps ≠ 4 → bps ≠ 2 → ∀ j, j < (decode_samples raw bps total).length →
        (decode_samples raw bps total).getD j DecodedSample.zero = DecodedSample.zero)
    ∧ decode_deque bps raw total = decode_samples raw bps total := by
  refine ⟨decode_go_length raw bps total 0, ?_, ?_, ?_, ?_, ?_⟩
  · intro j hj
    have h := (decode_go_getD raw bps total 0 j hj).2
    simpa [Nat.add_comm, Nat.add_mul, Nat.one_mul, Nat.zero_add] using h
  · intro hb j hj
    subst hb
    have h := (decode_go_getD raw 4 total 0 j hj).1
    have h4 : (0 + j) * 4 = 4 * j := by ring
    rw [h4] at h
    unfold decode_samples
    rw [h]
    simp [decodeOne]
  · intro hb j hj
    subst hb
    have h := (decode_go_getD raw 2 total 0 j hj).1
    have h2 : (0 + j) * 2 = 2 * j := by ring
    rw [h2] at h
    refine ⟨i16_from_le (raw.getD (2 * j) 0) (raw.getD (2 * j + 1) 0), ?_, rfl, ?_, ?_⟩
    · unfold decode_samples
      rw [h]
      simp [decodeOne]
    · exact (pcm_scale_range _ (i16_from_le_range _ _).1 (i16_from_le_range _ _).2).1
    · exact (pcm_scale_range _ (i16_from_le_range _ _).1 (i16_from_le_range _ _).2).2
  · intro h4 h2 j hj
    have h := (decode_go_getD raw bps total 0 j hj).1
    unfold decode_samples
    rw [h]
    simp [decodeOne, h4, h2]
  · unfold decode_samples
    rw [decode_go_eq_deque raw bps total 0]
    simp

/-- Witness for C7 on a five-byte buffer decoded as 16-bit samples. -/
theorem decode_samples_spec_w :
    (decode_samples [18, 52, 86, 120, 154] 2 10).length ≤ 10
    ∧ (∀ j, j < (decode_samples [18, 52, 86, 120, 154] 2 10).length →
        (j + 1) * 2 ≤ [18, 52, 86, 120, 154].length)
    ∧ ((2 : Nat) = 4 → ∀ j, j < (decode_samples [18, 52, 86, 120, 154] 2 10).length →
        (decode_samples [18, 52, 86, 120, 154] 2 10).getD j DecodedSample.zero =
          DecodedSample.float32 (u32_from_le ([18, 52, 86, 120, 154].getD (4 * j) 0)
            ([18, 52, 86, 120, 154].getD (4 * j + 1) 0)
            ([18, 52, 86, 120, 154].getD (4 * j + 2) 0)
            ([18, 52, 86, 120, 154].getD (4 * j + 3) 0)))
    ∧ ((2 : Nat) = 2 → ∀ j, j < (decode_samples [18, 52, 86, 120, 154] 2 10).length →
        ∃ v : Int, (decode_samples [18, 52, 86, 120, 154] 2 10).getD j DecodedSample.zero =
            DecodedSample.pcm16 v
          ∧ v = i16_from_le ([18, 52, 86, 120, 154].getD (2 * j) 0)
              ([18, 52, 86, 120, 154].getD (2 * j + 1) 0)
          ∧ -(1 : ℚ) ≤ (v : ℚ) / 32768 ∧ (v : ℚ) / 32768 ≤ 1)
    ∧ ((2 : Nat) ≠ 4 → (2 : Nat) ≠ 2 → ∀ j, j < (decode_samples [18, 52, 86, 120, 154] 2 10).length →
        (decode_samples [18, 52, 86, 120, 154] 2 10).getD j DecodedSample.zero = DecodedSample.zero)
    ∧ decode_deque 2 [18, 52, 86, 120, 154] 10 = decode_samples [18, 52, 86, 120, 154] 2 10 :=
  decode_samples_spec [18, 52, 86, 120, 154] 2 10

/-- C8: no target returned by enumeration has a process name that
case-insensitively matches a host-application name containing
"nexus" (the running application's own name): every window owned by
such a process is skipped by the self-capture guard, and monitor
targets carry an empty process name. -/
theorem windowTargets_no_nexus (ws : List OsWindow) (t : CaptureTarget)
    (ht : t ∈ windowTargets ws) :
    containsSub "nexus".toList (strToLower t.process_name).toList = false := by
  unfold windowTargets at ht
  rcases List.mem_filterMap.mp ht with ⟨w, _, hwf⟩
  by_cases h1 : (w.title == "" || w.title == "Program Manager") = true
  · rw [if_pos h1] at hwf; exact absurd hwf (by simp)
  · rw [if_neg h1] at hwf
    by_cases h2 : containsSub "nexus".toList (strToLower w.process_name).toList = true
    · rw [if_pos h2] at hwf; exact absurd hwf (by simp)
    · rw [if_neg h2] at hwf
      by_cases h3 : (!is_capturable_window w) = true
      · rw [if_pos h3] at hwf; exact absurd hwf (by simp)
      · rw [if_neg h3] at hwf
        injection hwf with hrec
        subst hrec
        simpa using h2

theorem monitorTargets_process_name (ms : List OsMonitor) (t : CaptureTarget)
    (ht : t ∈ monitorTargets ms) : t.process_name = "" := by
  unfold monitorTargets at ht
  rcases List.mem_map.mp ht with ⟨p, _, hpt⟩
  subst hpt
  rfl

theorem enumerate_no_self_capture (ws : List OsWindow) (ms : List OsMonitor)
    (self : String) (t : CaptureTarget)
    (hself : containsSub "nexus".toList (strToLower self).toList = true)
    (ht : t ∈ enumerate_capture_targets ws ms) :
    strToLower t.process_name ≠ strToLower self := by
  intro heq
  unfold enumerate_capture_targets at ht
  rcases List.mem_append.mp ht with hw | hm
  · have hfalse := windowTargets_no_nexus ws t hw
    rw [heq] at hfalse
    rw [hself] at hfalse
    exact absurd hfalse (by simp)
  · have hpn := monitorTargets_process_name ms t hm
    rw [hpn] at heq
    have h0 : strToLower self = "" := by rw [← heq]; rfl
    rw [h0] at hself
    exact absurd hself (by decide)

/-- Witness for C8: a Chrome window survives enumeration while the
host application is named `Nexus.exe`. -/
theorem enumerate_no_self_capture_w :
    containsSub "nexus".toList (strToLower "Nexus.exe").toList = true
    ∧ (⟨"window:42", "Browser", "window", "chrome.exe", 7, 800, 600, "tb"⟩ : CaptureTarget)
        ∈ enumerate_capture_targets
            [⟨"Browser", "chrome.exe", 42, true, true, 0, 0, 7, "tb", 800, 600⟩] []
    ∧ strToLower "chrome.exe" ≠ strToLower "Nexus.exe" :=
  ⟨by decide, by decide,
    enumerate_no_self_capture
      [⟨"Browser", "chrome.exe", 42, true, true, 0, 0, 7, "tb", 800, 600⟩] []
      "Nexus.exe" ⟨"window:42", "Browser", "window", "chrome.exe", 7, 800, 600, "tb"⟩
      (by decide) (by decide)⟩

theorem roundq_le_of_le (x : ℚ) (n : Nat) (hx : x ≤ n) : roundq x ≤ n := by
  have h2 : (⌊x + 1 / 2⌋ : ℤ) < (n : ℤ) + 1 := by
    apply Int.floor_lt.mpr
    push_cast
    linarith
  unfold roundq
  omega

/-- C9: `thumb_size` maps degenerate inputs to `1×1`; its result is
capped at `320×180`; and for nondegenerate inputs it never upscales
(each output dimension is at most the input dimension) and both
dimensions are produced from one common scale factor `s` with
`0 < s ≤ 1`, `w*s ≤ 320` and `h*s ≤ 180` (aspect ratio preserved up
to rounding, result clamped below by 1). -/
theorem thumb_size_spec (w h : Nat) :
    ((w = 0 ∨ h = 0) → thumb_size w h = (1, 1))
    ∧ (thumb_size w h).1 ≤ 320 ∧ (thumb_size w h).2 ≤ 180
    ∧ 1 ≤ (thumb_size w h).1 ∧ 1 ≤ (thumb_size w h).2
    ∧ (w ≠ 0 → h ≠ 0 → (thumb_size w h).1 ≤ w ∧ (thumb_size w h).2 ≤ h)
    ∧ (w ≠ 0 → h ≠ 0 → ∃ s : ℚ, 0 < s ∧ s ≤ 1
        ∧ (w : ℚ) * s ≤ 320 ∧ (h : ℚ) * s ≤ 180
        ∧ (thumb_size w h).1 = (max (roundq ((w : ℚ) * s)) 1).toNat
        ∧ (thumb_size w h).2 = (max (roundq ((h : ℚ) * s)) 1).toNat) := by
  by_cases hdeg : w = 0 ∨ h = 0
  · have ht : thumb_size w h = (1, 1) := by
      unfold thumb_size
      rw [if_pos hdeg]
    rw [ht]
    refine ⟨fun _ => rfl, by norm_num, by norm_num, by norm_num, by norm_num, ?_, ?_⟩
    · intro hw hh; exact absurd hdeg (by tauto)
    · intro hw hh; exact absurd hdeg (by tauto)
  · push_neg at hdeg
    obtain ⟨hw, hh⟩ := hdeg
    have hw' : (0 : ℚ) < w := by exact_mod_cast Nat.pos_of_ne_zero hw
    have hh' : (0 : ℚ) < h := by exact_mod_cast Nat.pos_of_ne_zero hh
    set s : ℚ := min (min (320 / (w : ℚ)) (180 / (h : ℚ))) 1 with hs
    have ht : thumb_size w h =
        ((max (roundq ((w : ℚ) * s)) 1).toNat, (max (roundq ((h : ℚ) * s)) 1).toNat) := by
      unfold thumb_size
      rw [if_neg (by push_neg; exact ⟨hw, hh⟩)]
    have hspos : 0 < s := by
      rw [hs]; exact lt_min (lt_min (by positivity) (by positivity)) one_pos
    have hs1 : s ≤ 1 := by rw [hs]; exact min_le_right _ _
    have hsw : s ≤ 320 / w := by rw [hs]; exact le_trans (min_le_left _ _) (min_le_left _ _)
    have hsh : s ≤ 180 / h := by rw [hs]; exact le_trans (min_le_left _ _) (min_le_right _ _)
    have hws : (w : ℚ) * s ≤ 320 := by
      have h1 : (w : ℚ) * s ≤ w * (320 / w) := mul_le_mul_of_nonneg_left hsw hw'.le
      have h2 : (w : ℚ) * (320 / w) = 320 := by field_simp
      linarith
    have hhs : (h : ℚ) * s ≤ 180 := by
      have h1 : (h : ℚ) * s ≤ h * (180 / h) := mul_le_mul_of_nonneg_left hsh hh'.le
      have h2 : (h : ℚ) * (180 / h) = 180 := by field_simp
      linarith
    have hwup : (w : ℚ) * s ≤ w := by
      have h1 : (w : ℚ) * s ≤ w * 1 := mul_le_mul_of_nonneg_left hs1 hw'.le
      linarith
    have hhup : (h : ℚ) * s ≤ h := by
      have h1 : (h : ℚ) * s ≤ h * 1 := mul_le_mul_of_nonneg_left hs1 hh'.le
      linarith
    have hr320 : roundq ((w : ℚ) * s) ≤ (320 : Nat) := roundq_le_of_le _ 320 (by push_cast; linarith)
    have hr180 : roundq ((h : ℚ) * s) ≤ (180 : Nat) := roundq_le_of_le _ 180 (by push_cast; linarith)
    have hrw : roundq ((w : ℚ) * s) ≤ (w : ℤ) := roundq_le_of_le _ w hwup
    have hrh : roundq ((h : ℚ) * s) ≤ (h : ℤ) := roundq_le_of_le _ h hhup
    rw [ht]
    have hw1 : 1 ≤ w := Nat.pos_of_ne_zero hw
    have hh1 : 1 ≤ h := Nat.pos_of_ne_zero hh
    refine ⟨fun hcon => absurd hcon (by tauto), ?_, ?_, ?_, ?_, ?_, ?_⟩
    · show (max (roundq ((w : ℚ) * s)) 1).toNat ≤ 320
      omega
    · show (max (roundq ((h : ℚ) * s)) 1).toNat ≤ 180
      omega
    · show 1 ≤ (max (roundq ((w : ℚ) * s)) 1).toNat
      omega
    · show 1 ≤ (max (roundq ((h : ℚ) * s)) 1).toNat
      omega
    · intro _ _
      constructor
      · show (max (roundq ((w : ℚ) * s)) 1).toNat ≤ w
        omega
      · show (max (roundq ((h : ℚ) * s)) 1).toNat ≤ h
        omega
    · intro _ _
      exact ⟨s, hspos, hs1, hws, hhs, rfl, rfl⟩

/-- Witness for C9 at a 1920×1080 input (scaled to exactly 320×180). -/
theorem thumb_size_spec_w :
    ((1920 = 0 ∨ 1080 = 0) → thumb_size 1920 1080 = (1, 1))
    ∧ (thumb_size 1920 1080).1 ≤ 320 ∧ (thumb_size 1920 1080).2 ≤ 180
    ∧ 1 ≤ (thumb_size 1920 1080).1 ∧ 1 ≤ (thumb_size 1920 1080).2
    ∧ (1920 ≠ 0 → 1080 ≠ 0 → (thumb_size 1920 1080).1 ≤ 1920 ∧ (thumb_size 1920 1080).2 ≤ 1080)
    ∧ (1920 ≠ 0 → 1080 ≠ 0 → ∃ s : ℚ, 0 < s ∧ s ≤ 1
        ∧ (1920 : ℚ) * s ≤ 320 ∧ (1080 : ℚ) * s ≤ 180
        ∧ (thumb_size 1920 1080).1 = (max (roundq ((1920 : ℚ) * s)) 1).toNat
        ∧ (thumb_size 1920 1080).2 = (max (roundq ((1080 : ℚ) * s)) 1).toNat) :=
  thumb_size_spec 1920 1080

theorem applyTrace_append (l : List Nat) (t1 t2 : List Ev) :
    applyTrace l (t1 ++ t2) = applyTrace (applyTrace l t1) t2 := by
  unfold applyTrace
  exact List.foldl_append stepLive l t1 t2

theorem boundedLive_cons (l : List Nat) (e : Ev) (tr : List Ev) :
    boundedLive l (e :: tr)
      = (decide ((stepLive l e).length ≤ 1) && boundedLive (stepLive l e) tr) := rfl

theorem boundedLive_append (l : List Nat) (t1 t2 : List Ev) :
    boundedLive l (t1 ++ t2) = (boundedLive l t1 && boundedLive (applyTrace l t1) t2) := by
  induction t1 generalizing l with
  | nil => simp [boundedLive, applyTrace]
  | cons e t ih =>
    have happ : applyTrace l (e :: t) = applyTrace (stepLive l e) t := rfl
    rw [List.cons_append, boundedLive_cons, boundedLive_cons, ih (stepLive l e), happ,
      Bool.and_assoc]

/-- C5: `start_capture` invoked while a session is active fails with
the AlreadyRunning error and leaves every component of the existing
session's state (running flag, video control slot, audio stop flag
slot, audio thread slot) unchanged, performing no action. -/
theorem start_capture_already_running (st : SysState) (ca : Bool) (env : StartEnv)
    (hrun : st.capture_running = true) :
    start_capture st ca env = (st, [], Except.error "Capture already running") := by
  unfold start_capture
  rw [if_pos hrun]

/-- Witness for C5 on a concrete running session. -/
theorem start_capture_already_running_w :
    start_capture ⟨true, some 0, some 1, some 2⟩ false ⟨Except.ok 3, 4, 5⟩
      = (⟨true, some 0, some 1, some 2⟩, [], Except.error "Capture already running") :=
  start_capture_already_running ⟨true, some 0, some 1, some 2⟩ false ⟨Except.ok 3, 4, 5⟩ rfl

/-- C4: `stop_capture` clears the running flag before any teardown
action (the first action of its trace is `clearRunning`); it signals
the stored stop flag and joins the stored audio thread before the
video stop action, and the join completes before the function
returns: on return no audio thread is live and the audio thread slot
is empty, so a caller observing a completed `stop_capture` may assume
the audio thread has fully exited. -/
theorem stop_capture_spec (st : SysState) (env : StopEnv) (live : List Nat)
    (hinv : audioInv st live) :
    ((stop_capture st env).1.capture_running = false)
    ∧ ((stop_capture st env).2.1.head? = some Ev.clearRunning)
    ∧ (∀ t, st.audio_thread = some t →
        Ev.joinAudio t ∈ (stop_capture st env).2.1
        ∧ occursBefore (Ev.joinAudio t) Ev.isVideoStop (stop_capture st env).2.1 = true)
    ∧ (∀ f, st.audio_stop_flag = some f →
        occursBefore (Ev.signalAudio f) Ev.isVideoStop (stop_capture st env).2.1 = true)
    ∧ applyTrace live (stop_capture st env).2.1 = []
    ∧ (stop_capture st env).1.audio_thread = none := by
  obtain ⟨run, ctrl, flag, thr⟩ := st
  obtain ⟨vs⟩ := env
  cases thr with
  | none =>
    have hl : live = [] := hinv
    subst hl
    cases flag <;> cases ctrl <;> cases vs <;>
      simp [stop_capture, applyTrace, stepLive, occursBefore, Ev.isVideoStop]
  | some t =>
    have hl : live = [t] := hinv
    subst hl
    cases flag <;> cases ctrl <;> cases vs <;>
      simp [stop_capture, applyTrace, stepLive, occursBefore, Ev.isVideoStop]

/-- Witness for C4 on a full running session whose video stop
succeeds. -/
theorem stop_capture_spec_w :
    ((stop_capture ⟨true, some 0, some 1, some 2⟩ ⟨true⟩).1.capture_running = false)
    ∧ ((stop_capture ⟨true, some 0, some 1, some 2⟩ ⟨true⟩).2.1.head? = some Ev.clearRunning)
    ∧ (∀ t, (⟨true, some 0, some 1, some 2⟩ : SysState).audio_thread = some t →
        Ev.joinAudio t ∈ (stop_capture ⟨true, some 0, some 1, some 2⟩ ⟨true⟩).2.1
        ∧ occursBefore (Ev.joinAudio t) Ev.isVideoStop
            (stop_capture ⟨true, some 0, some 1, some 2⟩ ⟨true⟩).2.1 = true)
    ∧ (∀ f, (⟨true, some 0, some 1, some 2⟩ : SysState).audio_stop_flag = some f →
        occursBefore (Ev.signalAudio f) Ev.isVideoStop
            (stop_capture ⟨true, some 0, some 1, some 2⟩ ⟨true⟩).2.1 = true)
    ∧ applyTrace [2] (stop_capture ⟨true, some 0, some 1, some 2⟩ ⟨true⟩).2.1 = []
    ∧ (stop_capture ⟨true, some 0, some 1, some 2⟩ ⟨true⟩).1.audio_thread = none :=
  stop_capture_spec ⟨true, some 0, some 1, some 2⟩ ⟨true⟩ [2] rfl

theorem switch_signal_join_before_spawn (st : SysState) (env : SwitchEnv) :
    (∀ f, st.audio_stop_flag = some f →
        occursBefore (Ev.signalAudio f) Ev.isSpawn (switch_capture_target st env).2.1 = true)
    ∧ (∀ t, st.audio_thread = some t →
        occursBefore (Ev.joinAudio t) Ev.isSpawn (switch_capture_target st env).2.1 = true) := by
  obtain ⟨run, ctrl, flag, thr⟩ := st
  obtain ⟨vs, wgcr, ff, ft⟩ := env
  cases run <;> cases ctrl <;> cases vs <;> cases flag <;> cases thr <;> cases wgcr <;>
    simp [switch_capture_target, switchAudioPhase, occursBefore, Ev.isSpawn]

theorem switch_audioInv (st : SysState) (env : SwitchEnv) (live : List Nat)
    (hinv : audioInv st live) :
    audioInv (switch_capture_target st env).1
      (applyTrace live (switch_capture_target st env).2.1) := by
  obtain ⟨run, ctrl, flag, thr⟩ := st
  obtain ⟨vs, wgcr, ff, ft⟩ := env
  cases thr with
  | none =>
    have hl : live = [] := hinv
    subst hl
    cases run <;> cases ctrl <;> cases vs <;> cases flag <;> cases wgcr <;>
      simp [switch_capture_target, switchAudioPhase, applyTrace, stepLive, audioInv]
  | some t =>
    have hl : live = [t] := hinv
    subst hl
    cases run <;> cases ctrl <;> cases vs <;> cases flag <;> cases wgcr <;>
      simp [switch_capture_target, switchAudioPhase, applyTrace, stepLive, audioInv]

theorem switch_boundedLive (st : SysState) (env : SwitchEnv) (live : List Nat)
    (hinv : audioInv st live) :
    boundedLive live (switch_capture_target st env).2.1 = true := by
  obtain ⟨run, ctrl, flag, thr⟩ := st
  obtain ⟨vs, wgcr, ff, ft⟩ := env
  cases thr with
  | none =>
    have hl : live = [] := hinv
    subst hl
    cases run <;> cases ctrl <;> cases vs <;> cases flag <;> cases wgcr <;>
      simp [switch_capture_target, switchAudioPhase, boundedLive, stepLive]
  | some t =>
    have hl : live = [t] := hinv
    subst hl
    cases run <;> cases ctrl <;> cases vs <;> cases flag <;> cases wgcr <;>
      simp [switch_capture_target, switchAudioPhase, boundedLive, stepLive]

/-- C3: across a `switch_capture_target` call the stored stop flag is
signalled and the stored audio thread joined before any spawn of a new
audio thread appears in the trace (join-before-spawn); this holds
again for a second switch issued immediately after the first, and
consequently over the two concatenated traces at most one audio
thread is ever live at any point, starting from a state whose live
threads are the tracked one. -/
theorem switch_no_concurrent_audio (st : SysState) (env1 env2 : SwitchEnv) (live : List Nat)
    (hinv : audioInv st live) :
    (∀ f, st.audio_stop_flag = some f →
        occursBefore (Ev.signalAudio f) Ev.isSpawn (switch_capture_target st env1).2.1 = true)
    ∧ (∀ t, st.audio_thread = some t →
        occursBefore (Ev.joinAudio t) Ev.isSpawn (switch_capture_target st env1).2.1 = true)
    ∧ (∀ t, (switch_capture_target st env1).1.audio_thread = some t →
        occursBefore (Ev.joinAudio t) Ev.isSpawn
          (switch_capture_target (switch_capture_target st env1).1 env2).2.1 = true)
    ∧ boundedLive live
        ((switch_capture_target st env1).2.1
          ++ (switch_capture_target (switch_capture_target st env1).1 env2).2.1) = true := by
  refine ⟨(switch_signal_join_before_spawn st env1).1,
          (switch_signal_join_before_spawn st env1).2,
          (switch_signal_join_before_spawn _ env2).2, ?_⟩
  rw [boundedLive_append,
      switch_boundedLive st env1 live hinv,
      switch_boundedLive _ env2 _ (switch_audioInv st env1 live hinv)]
  rfl

/-- Witness for C3: two rapid switches of a full running session, the
first of which fails with TargetNotFound. -/
theorem switch_no_concurrent_audio_w :
    (∀ f, (⟨true, some 0, some 1, some 2⟩ : SysState).audio_stop_flag = some f →
        occursBefore (Ev.signalAudio f) Ev.isSpawn
          (switch_capture_target ⟨true, some 0, some 1, some 2⟩
            ⟨true, Except.error "Window not found", 4, 5⟩).2.1 = true)
    ∧ (∀ t, (⟨true, some 0, some 1, some 2⟩ : SysState).audio_thread = some t →
        occursBefore (Ev.joinAudio t) Ev.isSpawn
          (switch_capture_target ⟨true, some 0, some 1, some 2⟩
            ⟨true, Except.error "Window not found", 4, 5⟩).2.1 = true)
    ∧ (∀ t, (switch_capture_target ⟨true, some 0, some 1, some 2⟩
            ⟨true, Except.error "Window not found", 4, 5⟩).1.audio_thread = some t →
        occursBefore (Ev.joinAudio t) Ev.isSpawn
          (switch_capture_target
            (switch_capture_target ⟨true, some 0, some 1, some 2⟩
              ⟨true, Except.error "Window not found", 4, 5⟩).1
            ⟨true, Except.ok 9, 6, 7⟩).2.1 = true)
    ∧ boundedLive [2]
        ((switch_capture_target ⟨true, some 0, some 1, some 2⟩
            ⟨true, Except.error "Window not found", 4, 5⟩).2.1
          ++ (switch_capture_target
            (switch_capture_target ⟨true, some 0, some 1, some 2⟩
              ⟨true, Except.error "Window not found", 4, 5⟩).1
            ⟨true, Except.ok 9, 6, 7⟩).2.1) = true :=
  switch_no_concurrent_audio ⟨true, some 0, some 1, some 2⟩
    ⟨true, Except.error "Window not found", 4, 5⟩ ⟨true, Except.ok 9, 6, 7⟩ [2] rfl

/-- C2 (amended): if `switch_capture_target` is called while a session
is running and fails mid-flight at any point after the previous video
control has been stopped successfully (for instance TargetNotFound on
the new id), the prior video stream has been stopped, the prior audio
thread has been signalled and joined, and the only audio thread left
running is the freshly spawned one, which the controller tracks in its
flag and thread slots (no untracked thread).  If instead stopping the
previous video control itself fails, switch returns that error before
the audio restart (see the counterexample theorem). -/
theorem switch_failure_clean_state (st : SysState) (env : SwitchEnv) (live : List Nat)
    (hrun : st.capture_running = true)
    (hstop : env.videoStopOk = true)
    (hinv : audioInv st live)
    (e : String)
    (herr : (switch_capture_target st env).2.2 = Except.error e) :
    (∀ c, st.capture_control = some c → Ev.stopVideo c ∈ (switch_capture_target st env).2.1)
    ∧ (∀ f, st.audio_stop_flag = some f →
        Ev.signalAudio f ∈ (switch_capture_target st env).2.1)
    ∧ (∀ t, st.audio_thread = some t →
        Ev.joinAudio t ∈ (switch_capture_target st env).2.1)
    ∧ applyTrace live (switch_capture_target st env).2.1 = [env.freshThread]
    ∧ (switch_capture_target st env).1.audio_thread = some env.freshThread
    ∧ (switch_capture_target st env).1.audio_stop_flag = some env.freshFlag
    ∧ (switch_capture_target st env).1.capture_control = none := by
  obtain ⟨run, ctrl, flag, thr⟩ := st
  obtain ⟨vs, wgcr, ff, ft⟩ := env
  cases run
  · exact absurd hrun (by simp)
  · cases vs
    · exact absurd hstop (by simp)
    · cases thr with
      | none =>
        have hl : live = [] := hinv
        subst hl
        cases ctrl <;> cases flag <;> cases wgcr <;>
          first
            | (exfalso; revert herr; simp [switch_capture_target, switchAudioPhase]; done)
            | simp [switch_capture_target, switchAudioPhase, applyTrace, stepLive]
      | some t =>
        have hl : live = [t] := hinv
        subst hl
        cases ctrl <;> cases flag <;> cases wgcr <;>
          first
            | (exfalso; revert herr; simp [switch_capture_target, switchAudioPhase]; done)
            | simp [switch_capture_target, switchAudioPhase, applyTrace, stepLive]

/-- Witness for the amended C2: a running session whose switch to a
nonexistent window fails with TargetNotFound after the video stop
succeeded. -/
theorem switch_failure_clean_state_w :
    (∀ c, (⟨true, some 0, some 1, some 2⟩ : SysState).capture_control = some c →
        Ev.stopVideo c ∈ (switch_capture_target ⟨true, some 0, some 1, some 2⟩
          ⟨true, Except.error "Window not found", 4, 5⟩).2.1)
    ∧ (∀ f, (⟨true, some 0, some 1, some 2⟩ : SysState).audio_stop_flag = some f →
        Ev.signalAudio f ∈ (switch_capture_target ⟨true, some 0, some 1, some 2⟩
          ⟨true, Except.error "Window not found", 4, 5⟩).2.1)
    ∧ (∀ t, (⟨true, some 0, some 1, some 2⟩ : SysState).audio_thread = some t →
        Ev.joinAudio t ∈ (switch_capture_target ⟨true, some 0, some 1, some 2⟩
          ⟨true, Except.error "Window not found", 4, 5⟩).2.1)
    ∧ applyTrace [2] (switch_capture_target ⟨true, some 0, some 1, some 2⟩
        ⟨true, Except.error "Window not found", 4, 5⟩).2.1 = [5]
    ∧ (switch_capture_target ⟨true, some 0, some 1, some 2⟩
        ⟨true, Except.error "Window not found", 4, 5⟩).1.audio_thread = some 5
    ∧ (switch_capture_target ⟨true, some 0, some 1, some 2⟩
        ⟨true, Except.error "Window not found", 4, 5⟩).1.audio_stop_flag = some 4
    ∧ (switch_capture_target ⟨true, some 0, some 1, some 2⟩
        ⟨true, Except.error "Window not found", 4, 5⟩).1.capture_control = none :=
  switch_failure_clean_state ⟨true, some 0, some 1, some 2⟩
    ⟨true, Except.error "Window not found", 4, 5⟩ [2] rfl rfl rfl "Window not found" rfl

/-- Counterexample to C2 as stated: when the stop of the previous
video control fails, `switch_capture_target` fails mid-flight but the
prior audio thread has been neither signalled nor joined — it is still
running — so a failed switch does not always leave the prior audio
thread stopped and joined. -/
theorem switch_video_stop_failure_cex :
    (switch_capture_target ⟨true, some 0, some 1, some 2⟩
        ⟨false, Except.ok 3, 4, 5⟩).2.2 = Except.error "stop capture failed"
    ∧ Ev.signalAudio 1 ∉ (switch_capture_target ⟨true, some 0, some 1, some 2⟩
        ⟨false, Except.ok 3, 4, 5⟩).2.1
    ∧ Ev.joinAudio 2 ∉ (switch_capture_target ⟨true, some 0, some 1, some 2⟩
        ⟨false, Except.ok 3, 4, 5⟩).2.1
    ∧ applyTrace [2] (switch_capture_target ⟨true, some 0, some 1, some 2⟩
        ⟨false, Except.ok 3, 4, 5⟩).2.1 = [2] :=
  ⟨rfl, by decide, by decide, rfl⟩

/-- C10 (amended): `switch_capture_target` stops the old audio thread
and then spawns a new audio loopback thread regardless of whether the
session was started with `capture_audio = false` (empty audio slots),
provided it passes the running check and stopping the old video
control does not fail: in that case, whether the subsequent video
restart succeeds or fails, a spawned audio thread is running and
tracked afterwards.  If the old video control's stop fails, switch
returns that error before the audio restart and spawns nothing (see
the counterexample theorem).  `start_capture`, by contrast, spawns an
audio thread only when `capture_audio` is true. -/
theorem switch_unconditional_audio_restart :
    (∀ (st : SysState) (env : SwitchEnv) (live : List Nat),
        st.capture_running = true →
        (st.capture_control = none ∨ env.videoStopOk = true) →
        audioInv st live →
        Ev.spawnAudio env.freshThread ∈ (switch_capture_target st env).2.1
        ∧ (switch_capture_target st env).1.audio_thread = some env.freshThread
        ∧ applyTrace live (switch_capture_target st env).2.1 = [env.freshThread])
    ∧ (∀ (st : SysState) (ca : Bool) (env : StartEnv),
        (∃ t, Ev.spawnAudio t ∈ (start_capture st ca env).2.1) → ca = true) := by
  constructor
  · intro st env live hrun hok hinv
    obtain ⟨run, ctrl, flag, thr⟩ := st
    obtain ⟨vs, wgcr, ff, ft⟩ := env
    cases run
    · exact absurd hrun (by simp)
    · cases thr with
      | none =>
        have hl : live = [] := hinv
        subst hl
        cases ctrl with
        | none =>
          cases vs <;> cases flag <;> cases wgcr <;>
            simp [switch_capture_target, switchAudioPhase, applyTrace, stepLive]
        | some c =>
          have hv : vs = true := by
            rcases hok with hok | hok
            · exact absurd hok (by simp)
            · exact hok
          subst hv
          cases flag <;> cases wgcr <;>
            simp [switch_capture_target, switchAudioPhase, applyTrace, stepLive]
      | some t =>
        have hl : live = [t] := hinv
        subst hl
        cases ctrl with
        | none =>
          cases vs <;> cases flag <;> cases wgcr <;>
            simp [switch_capture_target, switchAudioPhase, applyTrace, stepLive]
        | some c =>
          have hv : vs = true := by
            rcases hok with hok | hok
            · exact absurd hok (by simp)
            · exact hok
          subst hv
          cases flag <;> cases wgcr <;>
            simp [switch_capture_target, switchAudioPhase, applyTrace, stepLive]
  · intro st ca env hex
    obtain ⟨t, ht⟩ := hex
    obtain ⟨run, ctrl, flag, thr⟩ := st
    obtain ⟨wgcr, ff, ft⟩ := env
    cases ca
    · cases run <;> cases wgcr <;> simp [start_capture] at ht
    · rfl

/-- Witness for the amended C10: a switch of a session that was
started without audio capture (both audio slots empty) whose video
restart then fails still leaves a spawned, tracked audio thread
running. -/
theorem switch_unconditional_audio_restart_w :
    Ev.spawnAudio 5 ∈ (switch_capture_target ⟨true, some 0, none, none⟩
        ⟨true, Except.error "Window not found", 4, 5⟩).2.1
    ∧ (switch_capture_target ⟨true, some 0, none, none⟩
        ⟨true, Except.error "Window not found", 4, 5⟩).1.audio_thread = some 5
    ∧ applyTrace [] (switch_capture_target ⟨true, some 0, none, none⟩
        ⟨true, Except.error "Window not found", 4, 5⟩).2.1 = [5] :=
  switch_unconditional_audio_restart.1 ⟨true, some 0, none, none⟩
    ⟨true, Except.error "Window not found", 4, 5⟩ [] rfl (Or.inr rfl) rfl

/-- Counterexample to C10 as stated: a switch that passes the running
check but whose old-video stop fails returns before the audio restart,
so no audio thread is spawned, none is tracked and none is running
afterwards — not every switch call that passes the running check
leaves an audio capture thread running. -/
theorem switch_video_stop_failure_no_spawn_cex :
    (⟨true, some 0, none, none⟩ : SysState).capture_running = true
    ∧ (switch_capture_target ⟨true, some 0, none, none⟩
        ⟨false, Except.ok 3, 4, 5⟩).2.1 = [Ev.stopVideoFail 0]
    ∧ (switch_capture_target ⟨true, some 0, none, none⟩
        ⟨false, Except.ok 3, 4, 5⟩).1.audio_thread = none
    ∧ applyTrace [] (switch_capture_target ⟨true, some 0, none, none⟩
        ⟨false, Except.ok 3, 4, 5⟩).2.1 = [] :=
  ⟨rfl, rfl, rfl, rfl⟩
